import Mathlib

/-!
Verification of the ColorPeek palette extractor (`src/app.py`).

The core routine `extract_palette_pillow` is embedded shallowly below.
Pillow library primitives that the routine calls (`Image.thumbnail`,
`Image.convert('P', palette=Image.ADAPTIVE, colors=k)`, `Image.getcolors`,
`Image.paste` with an alpha mask) are external collaborators per the spec
(§6); the resampler and the adaptive quantizer enter the embedding as
explicit function parameters, and a concrete model `quantizeModel`
(modelled from the spec, §4.3) instantiates them for concrete scenarios.
Everything downstream of these collaborators — the transparency flattening
branch, the empty-palette early return, the reverse tuple sort, the
total-pixel accumulation, the top-k record loop with its hex / percent
formatting — is translated directly from `src/app.py` lines 56–117.
-/

set_option maxRecDepth 20000

namespace ColorPeek

/-- An RGB triple (each channel an 8-bit value in the source). -/
abbrev RGB := ℕ × ℕ × ℕ

/-- A decoded pixel: the RGBA value that `image.convert("RGBA")` would
report for it (the image codec that produces it is an external
collaborator, spec §6). For alpha-free modes the codec reports `a = 255`. -/
structure Pix where
  r : ℕ
  g : ℕ
  b : ℕ
  a : ℕ
deriving DecidableEq

/-- Pillow mode strings relevant to `src/app.py` line 63. -/
inductive Mode where
  | RGB
  | RGBA
  | LA
  | P
deriving DecidableEq

/-- A decoded image: mode flag, dimensions, whether `'transparency'` is in
`image.info`, and the per-pixel RGBA data. -/
structure Img where
  mode : Mode
  width : ℕ
  height : ℕ
  transparencyInfo : Bool
  pixels : List Pix
deriving DecidableEq

/-- The condition of `src/app.py` line 63:
`image.mode in ("RGBA", "LA") or (image.mode == "P" and 'transparency' in image.info)`. -/
def hasAlphaBranch (im : Img) : Bool :=
  match im.mode with
  | .RGBA => true
  | .LA => true
  | .P => im.transparencyInfo
  | .RGB => false

/-- Pillow's fixed-point division by 255 with rounding (`MULDIV255` in the
paste primitive): `round(x*y/255)` computed as
`t = x*y + 128; ((t >> 8) + t) >> 8`. -/
def muldiv255 (x y : ℕ) : ℕ :=
  let t := x * y + 128
  (t / 256 + t) / 256

/-- One channel of `background.paste(image, mask=alpha)` over a white
background: `blend = white*(255-a)/255 + c*a/255`, each term rounded by
`muldiv255` as Pillow's paste does. -/
def blendChan (c a : ℕ) : ℕ :=
  muldiv255 255 (255 - a) + muldiv255 c a

/-- Composite one pixel onto the solid white canvas (lines 65–70). -/
def blendWhite (p : Pix) : Pix :=
  ⟨blendChan p.r p.a, blendChan p.g p.a, blendChan p.b p.a, 255⟩

/-- Lines 63–73 of `src/app.py`: if the image carries transparency,
composite it over a white canvas of the same size; otherwise
`convert('RGB')`, which just drops to the canonical 3-channel form. -/
def flatten (im : Img) : Img :=
  if hasAlphaBranch im then
    ⟨.RGB, im.width, im.height, false, im.pixels.map blendWhite⟩
  else
    ⟨.RGB, im.width, im.height, false, im.pixels.map (fun p => ⟨p.r, p.g, p.b, 255⟩)⟩

/-- The RGB data of a (flattened) image, in raster order. -/
def rgbData (im : Img) : List RGB :=
  im.pixels.map (fun p => (p.r, p.g, p.b))

/-- `paletted.getcolors()` (line 82): for a palette-mode image this lists
`(pixel_count, palette_index)` for every index that occurs in the pixel
data — used entries only, each with a positive count. The model takes the
per-pixel index assignment and counts each distinct index. -/
def getcolors (assign : List ℕ) : List (ℕ × ℕ) :=
  assign.dedup.map (fun idx => (assign.count idx, idx))

/-- The order produced by Python's `color_counts.sort(reverse=True)` on
`(count, index)` tuples (line 87): descending lexicographic —
`a` precedes `b` iff `a.count > b.count`, or counts are equal and
`a.index ≥ b.index`. -/
def descLex (a b : ℕ × ℕ) : Prop :=
  b.1 < a.1 ∨ (a.1 = b.1 ∧ b.2 ≤ a.2)

instance : DecidableRel descLex :=
  fun a b => by unfold descLex; exact inferInstance

instance : IsTotal (ℕ × ℕ) descLex where
  total a b := by
    rcases lt_trichotomy a.1 b.1 with h | h | h
    · exact Or.inr (Or.inl h)
    · rcases le_total a.2 b.2 with h2 | h2
      · exact Or.inr (Or.inr ⟨h.symm, h2⟩)
      · exact Or.inl (Or.inr ⟨h, h2⟩)
    · exact Or.inl (Or.inl h)

instance : IsTrans (ℕ × ℕ) descLex where
  trans a b c hab hbc := by
    rcases hab with h1 | ⟨e1, l1⟩
    · rcases hbc with h2 | ⟨e2, l2⟩
      · exact Or.inl (h2.trans h1)
      · exact Or.inl (e2 ▸ h1)
    · rcases hbc with h2 | ⟨e2, l2⟩
      · exact Or.inl (e1 ▸ h2)
      · exact Or.inr ⟨e1.trans e2, l2.trans l1⟩

/-- Line 87: `color_counts.sort(reverse=True)`. -/
def sortCounts (l : List (ℕ × ℕ)) : List (ℕ × ℕ) :=
  l.insertionSort descLex

/-- One lowercase hexadecimal digit, as `'%x'` renders it. -/
def hexChar (n : ℕ) : Char :=
  if n < 10 then Char.ofNat (48 + n) else Char.ofNat (87 + n)

/-- `'%02x' % n` for a byte value `n < 256`: two lowercase hex digits. -/
def hex2 (n : ℕ) : String :=
  String.mk [hexChar (n / 16 % 16), hexChar (n % 16)]

/-- Line 104: `'#%02x%02x%02x' % (r, g, b)`. -/
def hexcode (c : RGB) : String :=
  "#" ++ hex2 c.1 ++ hex2 c.2.1 ++ hex2 c.2.2

/-- Round a rational to the nearest integer, ties to even — the rounding
rule of Python 3's `round` on exact halves, fixed explicitly here as spec
§9 directs. -/
def rhe (q : ℚ) : ℤ :=
  let f := ⌊q⌋
  if q - f < 1 / 2 then f
  else if 1 / 2 < q - f then f + 1
  else if f % 2 = 0 then f else f + 1

/-- Line 107's `round(x, 2)`: round to two decimal places. -/
def round2 (q : ℚ) : ℚ :=
  (rhe (q * 100) : ℚ) / 100

/-- The public result unit (lines 110–115). `percent` is kept as an exact
rational. -/
structure ColorRecord where
  hex : String
  rgb : RGB
  count : ℕ
  percent : ℚ
deriving DecidableEq

/-- Lines 98–115, one iteration: resolve the palette RGB for the entry's
index, render hex, and attach count and percent. Pillow guarantees the
indices produced by the quantizer lie inside the palette, so the default
of `getD` is never reached by the library collaborator. -/
def mkRecord (palette : List RGB) (total : ℕ) (p : ℕ × ℕ) : ColorRecord :=
  let c := palette.getD p.2 (0, 0, 0)
  ⟨hexcode c, c, p.1, round2 ((p.1 : ℚ) / (total : ℚ) * 100)⟩

/-- Lines 95–115: `for i in range(num_colors): count, idx = color_counts[i] ...`.
The loop reads `color_counts[i]` for every `i < num_colors` with no bound
on `len(color_counts)`; when the list runs out Python raises `IndexError`,
modelled as `none`. -/
def topRecords (palette : List RGB) (total : ℕ) :
    ℕ → List (ℕ × ℕ) → Option (List ColorRecord)
  | 0, _ => some []
  | _ + 1, [] => none
  | k + 1, p :: rest =>
    match topRecords palette total k rest with
    | some rs => some (mkRecord palette total p :: rs)
    | none => none

/-- `extract_palette_pillow` (`src/app.py` lines 39–117).
`resample` stands for `image.thumbnail((800, 800))` (external resampling
collaborator, spec §4.1/§6; a no-op on images already within the bound) and
`quantize` for `image.convert('P', palette=Image.ADAPTIVE, colors=k)`
(external adaptive quantizer, spec §4.3/§9), returning the palette and the
per-pixel palette-index assignment. `none` models an uncaught Python
exception; `some rs` a normal return of `rs`. -/
def extract_palette_pillow (resample : Img → Img)
    (quantize : List RGB → ℕ → List RGB × List ℕ)
    (pil_image : Img) (num_colors : ℕ) : Option (List ColorRecord) :=
  let image := resample pil_image
  let image := flatten image
  let pq := quantize (rgbData image) num_colors
  let palette := pq.1
  let color_counts := getcolors pq.2
  if color_counts.isEmpty then some []
  else
    let sorted := sortCounts color_counts
    let total := (sorted.map Prod.fst).sum
    topRecords palette total num_colors sorted

/-- Modelled from the spec: the adaptive quantizer
(`convert('P', palette=Image.ADAPTIVE, colors=k)`) is Pillow library code,
not part of this repository's source. Contract from §4.3: (a) at most `k`
palette entries; (b) every pixel maps to one palette index; (c) with at
most `k` distinct colors the palette is exactly the colors present. Beyond
the contract §4.3 fixes only that the palette minimizes representation
error: for `k = 1` that minimizer is the average pixel, and for
`1 < k < #distinct` the spec leaves the reduction open, modelled here as
nearest-of-the-first-`k` distinct colors. -/
def meanColor (px : List RGB) : RGB :=
  (((px.map fun c => c.1).sum) / px.length,
   ((px.map fun c => c.2.1).sum) / px.length,
   ((px.map fun c => c.2.2).sum) / px.length)

/-- Squared RGB distance (used only by the open part of the quantizer
model). -/
def dist2 (c d : RGB) : ℕ :=
  let dd := fun x y => (x - y) + (y - x)
  dd c.1 d.1 * dd c.1 d.1 + dd c.2.1 d.2.1 * dd c.2.1 d.2.1
    + dd c.2.2 d.2.2 * dd c.2.2 d.2.2

/-- Index of the palette entry nearest to `c` (earliest on ties). -/
def nearestIdx (pal : List RGB) (c : RGB) : ℕ :=
  (pal.enum.foldl
    (fun best p =>
      if dist2 p.2 c < dist2 (pal.getD best (0, 0, 0)) c then p.1 else best)
    0)

/-- Modelled from the spec (see `meanColor`): a concrete quantizer
satisfying §4.3's contract (a)–(c), used to instantiate the external
Pillow quantizer on concrete scenarios. -/
def quantizeModel (px : List RGB) (k : ℕ) : List RGB × List ℕ :=
  let distinct := px.dedup
  if distinct.length ≤ k then
    (distinct, px.map fun c => distinct.indexOf c)
  else if k = 1 then
    ([meanColor px], px.map fun _ => 0)
  else
    (distinct.take k, px.map fun c => nearestIdx (distinct.take k) c)

/-- The used-entry count list of the pipeline at a given input: what
`paletted.getcolors()` yields at line 82. -/
def usedCounts (resample : Img → Img)
    (quantize : List RGB → ℕ → List RGB × List ℕ)
    (img : Img) (k : ℕ) : List (ℕ × ℕ) :=
  getcolors (quantize (rgbData (flatten (resample img))) k).2

/-- `total` of line 90: the sum of counts over all used palette entries. -/
def totalPixelsOf (resample : Img → Img)
    (quantize : List RGB → ℕ → List RGB × List ℕ)
    (img : Img) (k : ℕ) : ℕ :=
  ((usedCounts resample quantize img k).map Prod.fst).sum

/-- A two-cell heap for the frame-effect analysis: the caller-owned image
(`pil_image`) and the extractor's working image (`image`). Pillow calls
like `thumbnail` and `paste` mutate an image in place, so the embedding
threads this state explicitly. -/
structure Heap where
  caller : Img
  work : Img

/-- Line 57: `image = pil_image.copy()` — the working cell starts as a
copy of the caller's image. -/
def copyToWork (img : Img) : Heap :=
  ⟨img, img⟩

/-- Line 60: `image.thumbnail((resize_for_speed, resize_for_speed))`
mutates the working image in place. -/
def thumbnailInPlace (resample : Img → Img) (h : Heap) : Heap :=
  ⟨h.caller, resample h.work⟩

/-- Lines 63–73 rebind `image` to the flattened working image. -/
def flattenInPlace (h : Heap) : Heap :=
  ⟨h.caller, flatten h.work⟩

/-- `extract_palette_pillow` with the caller-owned image threaded through
explicitly: the second component is the caller's image after the call. -/
def extract_palette_pillow_st (resample : Img → Img)
    (quantize : List RGB → ℕ → List RGB × List ℕ)
    (pil_image : Img) (num_colors : ℕ) : Option (List ColorRecord) × Img :=
  let h := copyToWork pil_image
  let h := thumbnailInPlace resample h
  let h := flattenInPlace h
  let pq := quantize (rgbData h.work) num_colors
  let palette := pq.1
  let color_counts := getcolors pq.2
  if color_counts.isEmpty then (some [], h.caller)
  else
    let sorted := sortCounts color_counts
    let total := (sorted.map Prod.fst).sum
    (topRecords palette total num_colors sorted, h.caller)

/-- The spec's scenario image: a solid 10×10 red (255,0,0) opaque image. -/
def red10 : Img :=
  ⟨.RGB, 10, 10, false, List.replicate 100 ⟨255, 0, 0, 255⟩⟩

/-- The spec's scenario image: 4×4, 8 pixels pure black and 8 pure white. -/
def bw16 : Img :=
  ⟨.RGB, 4, 4, false,
    List.replicate 8 ⟨0, 0, 0, 255⟩ ++ List.replicate 8 ⟨255, 255, 255, 255⟩⟩

/-- The spec's scenario image: a fully transparent 2×2 RGBA image
(alpha = 0 everywhere; the hidden RGB data is arbitrary). -/
def trans22 : Img :=
  ⟨.RGBA, 2, 2, false, List.replicate 4 ⟨12, 34, 56, 0⟩⟩

/-- A 2×2 two-color image with unequal counts: one white pixel and three
black pixels (black is the higher-count color). -/
def twoTone : Img :=
  ⟨.RGB, 2, 2, false, ⟨255, 255, 255, 255⟩ :: List.replicate 3 ⟨0, 0, 0, 255⟩⟩

/-- A zero-pixel image. -/
def emptyImg : Img :=
  ⟨.RGB, 0, 0, false, []⟩

/-- The record the pipeline produces for white on `bw16` with `k = 2`. -/
def whiteRec : ColorRecord :=
  ⟨"#ffffff", (255, 255, 255), 8, 50⟩

/-- The record the pipeline produces for black on `bw16` with `k = 2`. -/
def blackRec : ColorRecord :=
  ⟨"#000000", (0, 0, 0), 8, 50⟩

/-- The full result of the pipeline on `bw16` with `k = 2`. -/
def bwRecords : List ColorRecord :=
  [whiteRec, blackRec]

/-- The `count` field of a formatted record is the entry's pixel count. -/
theorem mkRecord_count (palette : List RGB) (total : ℕ) (p : ℕ × ℕ) :
    (mkRecord palette total p).count = p.1 := rfl

/-- The `percent` field of a formatted record follows line 107. -/
theorem mkRecord_percent (palette : List RGB) (total : ℕ) (p : ℕ × ℕ) :
    (mkRecord palette total p).percent =
      round2 ((p.1 : ℚ) / (total : ℚ) * 100) := rfl

/-- The top-k loop succeeds exactly when the count list is long enough, in
which case it formats the first `k` entries in order. -/
theorem topRecords_eq_some_iff (palette : List RGB) (total : ℕ) (k : ℕ)
    (l : List (ℕ × ℕ)) (rs : List ColorRecord) :
    topRecords palette total k l = some rs ↔
      k ≤ l.length ∧ rs = (l.take k).map (mkRecord palette total) := by
  induction k generalizing l rs with
  | zero => simp [topRecords, eq_comm]
  | succ k ih =>
    cases l with
    | nil => simp [topRecords]
    | cons p rest =>
      have hred : topRecords palette total (k + 1) (p :: rest) =
          match topRecords palette total k rest with
          | some rs0 => some (mkRecord palette total p :: rs0)
          | none => none := rfl
      rw [hred]
      cases hrec : topRecords palette total k rest with
      | none =>
        constructor
        · intro h; cases h
        · rintro ⟨hlen, hrs⟩
          have hk : k ≤ rest.length := by simpa using hlen
          have := (ih rest ((rest.take k).map (mkRecord palette total))).mpr
            ⟨hk, rfl⟩
          rw [this] at hrec
          cases hrec
      | some rs0 =>
        obtain ⟨hk, hrs0⟩ := (ih rest rs0).mp hrec
        constructor
        · intro h
          injection h with h
          refine ⟨by simpa using Nat.succ_le_succ hk, ?_⟩
          rw [← h, hrs0, List.take_succ_cons, List.map_cons]
        · rintro ⟨hlen, hrs⟩
          rw [hrs, hrs0, List.take_succ_cons, List.map_cons]

/-- The reverse sort of line 87 is a permutation of the count list. -/
theorem sortCounts_perm (l : List (ℕ × ℕ)) : List.Perm (sortCounts l) l :=
  List.perm_insertionSort descLex l

/-- Sorting does not change the pixel total of line 90. -/
theorem sum_fst_sortCounts (l : List (ℕ × ℕ)) :
    ((sortCounts l).map Prod.fst).sum = (l.map Prod.fst).sum :=
  ((sortCounts_perm l).map Prod.fst).sum_eq

/-- Line 87 sorts by descending `(count, index)` tuple order. -/
theorem sortCounts_sorted (l : List (ℕ × ℕ)) :
    (sortCounts l).Sorted descLex :=
  List.sorted_insertionSort descLex l

/-- The extractor, phrased through the named pipeline stages. -/
theorem extract_eq_ite (resample : Img → Img)
    (quantize : List RGB → ℕ → List RGB × List ℕ) (img : Img) (k : ℕ) :
    extract_palette_pillow resample quantize img k =
      if (usedCounts resample quantize img k).isEmpty then some []
      else
        topRecords (quantize (rgbData (flatten (resample img))) k).1
          (totalPixelsOf resample quantize img k) k
          (sortCounts (usedCounts resample quantize img k)) := by
  simp only [extract_palette_pillow, usedCounts, totalPixelsOf]
  rw [sum_fst_sortCounts]

/-- Every entry reported by `getcolors` has a positive pixel count. -/
theorem getcolors_pos (assign : List ℕ) :
    ∀ p ∈ getcolors assign, 0 < p.1 := by
  intro p hp
  unfold getcolors at hp
  obtain ⟨idx, hidx, rfl⟩ := List.mem_map.mp hp
  exact List.count_pos_iff.mpr (List.mem_dedup.mp hidx)

/-- `getcolors` lists each used palette index once, so its entries are
pairwise distinct. -/
theorem getcolors_nodup (assign : List ℕ) : (getcolors assign).Nodup := by
  unfold getcolors
  exact (List.nodup_dedup assign).map fun a b h => congrArg Prod.snd h

/-- The flattening stage preserves the pixel count. -/
theorem rgbData_flatten_length (im : Img) :
    (rgbData (flatten im)).length = im.pixels.length := by
  unfold rgbData flatten
  split <;> simp

/-- Deduplicating a non-empty constant list leaves the single value. -/
theorem dedup_replicate_of_pos (a : ℕ) :
    ∀ m : ℕ, m ≠ 0 → (List.replicate m a).dedup = [a]
  | 0, h => absurd rfl h
  | 1, _ => by simp
  | m + 2, _ => by
    rw [List.replicate_succ, List.dedup_cons_of_mem (by simp)]
    exact dedup_replicate_of_pos a (m + 1) (by omega)

/-- When every pixel is assigned index 0 and there is at least one pixel,
`getcolors` reports the single entry `(#pixels, 0)`. -/
theorem getcolors_all_zero (assign : List ℕ) (hne : assign ≠ [])
    (h : ∀ i ∈ assign, i = 0) :
    getcolors assign = [(assign.length, 0)] := by
  have hrep : assign = List.replicate assign.length 0 :=
    List.eq_replicate_of_mem h
  have hlen : assign.length ≠ 0 := by
    intro h0
    exact hne (List.length_eq_zero.mp h0)
  unfold getcolors
  rw [hrep, dedup_replicate_of_pos 0 assign.length hlen]
  simp [List.count_replicate]

/-- Evaluate `round2` when the scaled argument is a whole number. -/
theorem round2_of_mul_eq_intCast (q : ℚ) (z : ℤ) (h : q * 100 = (z : ℚ)) :
    round2 q = (z : ℚ) / 100 := by
  unfold round2 rhe
  rw [h, Int.floor_intCast]
  norm_num

/-- A color covering all pixels gets percent exactly 100. -/
theorem round2_cast_div_self (n : ℕ) (h : n ≠ 0) :
    round2 ((n : ℚ) / (n : ℚ) * 100) = 100 := by
  rw [div_self (by exact_mod_cast h : ((n : ℚ)) ≠ 0), one_mul]
  rw [round2_of_mul_eq_intCast 100 10000 (by norm_num)]
  norm_num

/-- The percent of an 8-of-16-pixel color is exactly 50. -/
theorem pct50 : round2 ((8 : ℚ) / 16 * 100) = 50 := by
  rw [round2_of_mul_eq_intCast _ 5000 (by norm_num)]
  norm_num

/-- The concrete run of the pipeline on the solid red image at k = 1. -/
theorem extract_red10_k1 :
    extract_palette_pillow id quantizeModel red10 1 =
      some [⟨"#ff0000", (255, 0, 0), 100, 100⟩] := by
  have h1 : extract_palette_pillow id quantizeModel red10 1 =
      some [mkRecord [(255, 0, 0)] 100 (100, 0)] := rfl
  rw [h1]
  have h2 : mkRecord [(255, 0, 0)] 100 (100, 0) =
      (⟨"#ff0000", (255, 0, 0), 100, 100⟩ : ColorRecord) := by
    simp only [mkRecord, ColorRecord.mk.injEq]
    refine ⟨by decide, by decide, by decide, ?_⟩
    show round2 (((100 : ℕ) : ℚ) / ((100 : ℕ) : ℚ) * 100) = 100
    exact round2_cast_div_self 100 (by decide)
  rw [h2]

/-- The concrete run of the pipeline on the black-and-white image at
k = 2. -/
theorem extract_bw16_k2 :
    extract_palette_pillow id quantizeModel bw16 2 = some bwRecords := by
  have h1 : extract_palette_pillow id quantizeModel bw16 2 =
      some [mkRecord [(0, 0, 0), (255, 255, 255)] 16 (8, 1),
        mkRecord [(0, 0, 0), (255, 255, 255)] 16 (8, 0)] := rfl
  rw [h1]
  have hw : mkRecord [(0, 0, 0), (255, 255, 255)] 16 (8, 1) = whiteRec := by
    simp only [mkRecord, whiteRec, ColorRecord.mk.injEq]
    refine ⟨by decide, by decide, by decide, ?_⟩
    show round2 (((8 : ℕ) : ℚ) / ((16 : ℕ) : ℚ) * 100) = 50
    push_cast
    exact pct50
  have hb : mkRecord [(0, 0, 0), (255, 255, 255)] 16 (8, 0) = blackRec := by
    simp only [mkRecord, blackRec, ColorRecord.mk.injEq]
    refine ⟨by decide, by decide, by decide, ?_⟩
    show round2 (((8 : ℕ) : ℚ) / ((16 : ℕ) : ℚ) * 100) = 50
    push_cast
    exact pct50
  rw [hw, hb]
  rfl

/-- The concrete run of the pipeline on the transparent image at k = 1. -/
theorem extract_trans22_k1 :
    extract_palette_pillow id quantizeModel trans22 1 =
      some [⟨"#ffffff", (255, 255, 255), 4, 100⟩] := by
  have h1 : extract_palette_pillow id quantizeModel trans22 1 =
      some [mkRecord [(255, 255, 255)] 4 (4, 0)] := rfl
  rw [h1]
  have h2 : mkRecord [(255, 255, 255)] 4 (4, 0) =
      (⟨"#ffffff", (255, 255, 255), 4, 100⟩ : ColorRecord) := by
    simp only [mkRecord, ColorRecord.mk.injEq]
    refine ⟨by decide, by decide, by decide, ?_⟩
    show round2 (((4 : ℕ) : ℚ) / ((4 : ℕ) : ℚ) * 100) = 100
    exact round2_cast_div_self 4 (by decide)
  rw [h2]

/-- The concrete run of the pipeline on the two-color image at k = 1. -/
theorem extract_twoTone_k1 :
    extract_palette_pillow id quantizeModel twoTone 1 =
      some [⟨"#3f3f3f", (63, 63, 63), 4, 100⟩] := by
  have h1 : extract_palette_pillow id quantizeModel twoTone 1 =
      some [mkRecord [(63, 63, 63)] 4 (4, 0)] := rfl
  rw [h1]
  have h2 : mkRecord [(63, 63, 63)] 4 (4, 0) =
      (⟨"#3f3f3f", (63, 63, 63), 4, 100⟩ : ColorRecord) := by
    simp only [mkRecord, ColorRecord.mk.injEq]
    refine ⟨by decide, by decide, by decide, ?_⟩
    show round2 (((4 : ℕ) : ℚ) / ((4 : ℕ) : ℚ) * 100) = 100
    exact round2_cast_div_self 4 (by decide)
  rw [h2]

/-- C1: the claim says that on a one-color image the call must not fail
for any k in [1,20], and that a solid 10×10 red image with k = 6 yields
exactly one record. In the code the loop `for i in range(num_colors)`
reads `color_counts[i]` without bounding i by `len(color_counts)`; with a
single used palette entry and k = 6 it raises IndexError at i = 1
(modelled as `none`). At k = 1 the loop stays in bounds and the intended
single red record with percent = 100 is produced. -/
theorem C1_solid_red_k6_raises :
    extract_palette_pillow id quantizeModel red10 6 = none ∧
      extract_palette_pillow id quantizeModel red10 1 =
        some [⟨"#ff0000", (255, 0, 0), 100, 100⟩] :=
  ⟨rfl, extract_red10_k1⟩

/-- C2: the claim says that when the quantized palette has fewer than k
used entries, fewer than k records are returned and the call still
succeeds. On the 4×4 half-black half-white image with k = 6 only two
palette entries are used, and the unbounded loop raises IndexError at
i = 2 (`none`) instead of returning two records; with k = 2 the loop stays
in bounds and both records are returned. -/
theorem C2_fewer_entries_raises :
    extract_palette_pillow id quantizeModel bw16 6 = none ∧
      extract_palette_pillow id quantizeModel bw16 2 = some bwRecords :=
  ⟨rfl, extract_bw16_k2⟩

/-- C5: flattening composites the fully transparent 2×2 RGBA image onto
the white canvas, giving four opaque white pixels — but the claimed single
white record (count 4, percent 100) is only produced at k = 1; at the
function's default k = 6 the unbounded top-k loop raises IndexError
(`none`) because white is the only used palette entry. -/
theorem C5_transparent_flattens_white_but_k6_raises :
    flatten trans22 = ⟨.RGB, 2, 2, false, List.replicate 4 ⟨255, 255, 255, 255⟩⟩ ∧
      extract_palette_pillow id quantizeModel trans22 6 = none ∧
      extract_palette_pillow id quantizeModel trans22 1 =
        some [⟨"#ffffff", (255, 255, 255), 4, 100⟩] :=
  ⟨rfl, rfl, extract_trans22_k1⟩

/-- C3 counterexample: on a zero-pixel image the core does not reject the
call before the pipeline — no precondition check exists, and lines 83–84
return the empty list when no palette entry is used, so the call produces
an empty result instead of failing outright. -/
theorem C3_empty_image_counterexample :
    extract_palette_pillow id quantizeModel emptyImg 6 = some [] := by
  rfl

/-- C4 counterexample: on the two-color image with one white and three
black pixels, k = 1 returns one record whose color is the quantizer's
single representative — the error-minimizing average (63,63,63) — which is
neither input color, and in particular not the higher-count color black. -/
theorem C4_two_color_counterexample :
    extract_palette_pillow id quantizeModel twoTone 1 =
        some [⟨"#3f3f3f", (63, 63, 63), 4, 100⟩] ∧
      ((63, 63, 63) : RGB) ≠ (0, 0, 0) ∧ ((63, 63, 63) : RGB) ≠ (255, 255, 255) :=
  ⟨extract_twoTone_k1, by decide, by decide⟩

/-- C9: the extractor never mutates the caller-owned image. Line 57 copies
`pil_image` into a working cell and every in-place Pillow operation
(thumbnail, the paste-based flattening) is applied to the working cell
only, so after the call the caller's image is unchanged — and the
state-threaded run returns exactly the pure extractor's result. -/
theorem C9_caller_image_unchanged (resample : Img → Img)
    (quantize : List RGB → ℕ → List RGB × List ℕ) (img : Img) (k : ℕ) :
    (extract_palette_pillow_st resample quantize img k).2 = img ∧
      (extract_palette_pillow_st resample quantize img k).1 =
        extract_palette_pillow resample quantize img k := by
  constructor
  · simp only [extract_palette_pillow_st, copyToWork, thumbnailInPlace,
      flattenInPlace]
    split <;> rfl
  · simp only [extract_palette_pillow_st, extract_palette_pillow, copyToWork,
      thumbnailInPlace, flattenInPlace]
    split <;> rfl

/-- C3 (amended): the core performs no precondition check for zero-pixel
images; the empty image flows through the whole pipeline, no palette entry
is used, and lines 83–84 return the empty list — an empty result rather
than a precondition failure. -/
theorem C3_empty_image_returns_empty_list (resample : Img → Img)
    (quantize : List RGB → ℕ → List RGB × List ℕ) (img : Img) (k : ℕ)
    (h0 : (resample img).pixels = [])
    (hq : (quantize (rgbData (flatten (resample img))) k).2.length =
      (rgbData (flatten (resample img))).length) :
    extract_palette_pillow resample quantize img k = some [] := by
  have h1 : (rgbData (flatten (resample img))).length = 0 := by
    rw [rgbData_flatten_length, h0]
    rfl
  have h2 : (quantize (rgbData (flatten (resample img))) k).2 = [] :=
    List.length_eq_zero.mp (hq.trans h1)
  rw [extract_eq_ite]
  have h3 : usedCounts resample quantize img k = [] := by
    unfold usedCounts
    rw [h2]
    rfl
  rw [h3]
  rfl

/-- Witness for the amended C3 at a concrete zero-pixel input. -/
theorem C3_empty_image_returns_empty_list_w :
    extract_palette_pillow id quantizeModel emptyImg 3 = some [] :=
  C3_empty_image_returns_empty_list id quantizeModel emptyImg 3 rfl rfl

/-- C4 (amended): on any non-empty image, k = 1 under the §4.3 quantizer
contract (at most one palette entry, every pixel assigned an in-range
index) returns exactly one record whose count is the whole pixel count and
whose percent is exactly 100; its color is the quantizer's single
representative, which need not be either input color of a two-color
image. -/
theorem C4_k1_returns_single_quantizer_color (resample : Img → Img)
    (quantize : List RGB → ℕ → List RGB × List ℕ) (img : Img)
    (hlen : (quantize (rgbData (flatten (resample img))) 1).2.length =
      (rgbData (flatten (resample img))).length)
    (hpal : (quantize (rgbData (flatten (resample img))) 1).1.length ≤ 1)
    (hidx : ∀ i ∈ (quantize (rgbData (flatten (resample img))) 1).2,
      i < (quantize (rgbData (flatten (resample img))) 1).1.length)
    (hne : (resample img).pixels ≠ []) :
    ∃ r : ColorRecord,
      extract_palette_pillow resample quantize img 1 = some [r] ∧
        r.count = (resample img).pixels.length ∧ r.percent = 100 := by
  have hz : ∀ i ∈ (quantize (rgbData (flatten (resample img))) 1).2, i = 0 := by
    intro i hi
    have h1 := hidx i hi
    omega
  have hlen2 : (quantize (rgbData (flatten (resample img))) 1).2.length =
      (resample img).pixels.length := by
    rw [hlen, rgbData_flatten_length]
  have hne2 : (quantize (rgbData (flatten (resample img))) 1).2 ≠ [] := by
    intro h
    apply hne
    apply List.length_eq_zero.mp
    rw [← hlen2, h]
    rfl
  have hcc : getcolors (quantize (rgbData (flatten (resample img))) 1).2 =
      [((quantize (rgbData (flatten (resample img))) 1).2.length, 0)] :=
    getcolors_all_zero _ hne2 hz
  have hU : usedCounts resample quantize img 1 =
      [((quantize (rgbData (flatten (resample img))) 1).2.length, 0)] := hcc
  have htot : totalPixelsOf resample quantize img 1 =
      (quantize (rgbData (flatten (resample img))) 1).2.length := by
    unfold totalPixelsOf
    rw [hU]
    simp
  rw [extract_eq_ite, hU, htot]
  refine ⟨mkRecord (quantize (rgbData (flatten (resample img))) 1).1
      (quantize (rgbData (flatten (resample img))) 1).2.length
      ((quantize (rgbData (flatten (resample img))) 1).2.length, 0), ?_, ?_, ?_⟩
  · rw [if_neg (by simp)]
    rfl
  · rw [mkRecord_count]
    exact hlen2
  · rw [mkRecord_percent]
    apply round2_cast_div_self
    intro h0
    exact hne2 (List.length_eq_zero.mp h0)

/-- Witness for the amended C4 at the concrete two-color image. -/
theorem C4_k1_returns_single_quantizer_color_w :
    ∃ r : ColorRecord,
      extract_palette_pillow id quantizeModel twoTone 1 = some [r] ∧
        r.count = twoTone.pixels.length ∧ r.percent = 100 :=
  C4_k1_returns_single_quantizer_color id quantizeModel twoTone rfl
    (by decide) (by decide) (by decide)

/-- C6: every returned record's percent is exactly
`round(pixelCount / totalPixels * 100, 2)`, with `totalPixels` the sum of
counts over all used palette entries (line 90 computes the denominator
before the top-k truncation, line 107 the rounding). -/
theorem C6_percent_rounding_law (resample : Img → Img)
    (quantize : List RGB → ℕ → List RGB × List ℕ) (img : Img) (k : ℕ)
    (rs : List ColorRecord)
    (h : extract_palette_pillow resample quantize img k = some rs) :
    ∀ r ∈ rs, r.percent =
      round2 ((r.count : ℚ) / (totalPixelsOf resample quantize img k : ℚ) * 100) := by
  intro r hr
  rw [extract_eq_ite] at h
  by_cases he : (usedCounts resample quantize img k).isEmpty = true
  · rw [if_pos he] at h
    injection h with h
    rw [← h] at hr
    cases hr
  · rw [if_neg he] at h
    obtain ⟨hk, hrs⟩ := (topRecords_eq_some_iff _ _ _ _ _).mp h
    subst hrs
    obtain ⟨p, hp, hpr⟩ := List.mem_map.mp hr
    rw [← hpr, mkRecord_percent, mkRecord_count]

/-- Witness for C6 at the black-and-white image with k = 2. -/
theorem C6_percent_rounding_law_w :
    whiteRec.percent =
      round2 ((whiteRec.count : ℚ) /
        (totalPixelsOf id quantizeModel bw16 2 : ℚ) * 100) :=
  C6_percent_rounding_law id quantizeModel bw16 2 bwRecords extract_bw16_k2
    whiteRec (by decide)

/-- C7: the returned records are sorted by pixel count, non-increasing
between every pair of adjacent records (line 87's reverse sort followed by
the in-order top-k loop). -/
theorem C7_sorted_by_count (resample : Img → Img)
    (quantize : List RGB → ℕ → List RGB × List ℕ) (img : Img) (k : ℕ)
    (rs : List ColorRecord)
    (h : extract_palette_pillow resample quantize img k = some rs) :
    rs.Chain' (fun a b => b.count ≤ a.count) := by
  rw [extract_eq_ite] at h
  by_cases he : (usedCounts resample quantize img k).isEmpty = true
  · rw [if_pos he] at h
    injection h with h
    rw [← h]
    exact List.chain'_nil
  · rw [if_neg he] at h
    obtain ⟨hk, hrs⟩ := (topRecords_eq_some_iff _ _ _ _ _).mp h
    subst hrs
    apply List.Pairwise.chain'
    rw [List.pairwise_map]
    have hp : ((sortCounts (usedCounts resample quantize img k)).take k).Pairwise descLex :=
      (sortCounts_sorted _).sublist (List.take_sublist _ _)
    refine hp.imp ?_
    intro a b hab
    simp only [mkRecord_count]
    rcases hab with h1 | ⟨h1, h2⟩
    · exact le_of_lt h1
    · exact le_of_eq h1.symm

/-- Witness for C7 at the black-and-white image with k = 2. -/
theorem C7_sorted_by_count_w :
    bwRecords.Chain' (fun a b => b.count ≤ a.count) :=
  C7_sorted_by_count id quantizeModel bw16 2 bwRecords extract_bw16_k2

/-- C8: the counts of the returned records sum to at most `totalPixels`
(the sum over all used entries, line 90), with equality exactly when every
used palette entry was returned. -/
theorem C8_count_coverage (resample : Img → Img)
    (quantize : List RGB → ℕ → List RGB × List ℕ) (img : Img) (k : ℕ)
    (rs : List ColorRecord)
    (h : extract_palette_pillow resample quantize img k = some rs) :
    (rs.map fun r => r.count).sum ≤ totalPixelsOf resample quantize img k ∧
      ((rs.map fun r => r.count).sum = totalPixelsOf resample quantize img k ↔
        rs.length = (usedCounts resample quantize img k).length) := by
  rw [extract_eq_ite] at h
  by_cases he : (usedCounts resample quantize img k).isEmpty = true
  · rw [if_pos he] at h
    injection h with h
    rw [← h]
    have he2 : usedCounts resample quantize img k = [] := List.isEmpty_iff.mp he
    unfold totalPixelsOf
    rw [he2]
    simp
  · rw [if_neg he] at h
    obtain ⟨hk, hrs⟩ := (topRecords_eq_some_iff _ _ _ _ _).mp h
    subst hrs
    have hcounts :
        ((((sortCounts (usedCounts resample quantize img k)).take k).map
            (mkRecord (quantize (rgbData (flatten (resample img))) k).1
              (totalPixelsOf resample quantize img k))).map fun r => r.count)
          = ((sortCounts (usedCounts resample quantize img k)).map Prod.fst).take k := by
      rw [List.map_map, ← List.map_take]
      congr 1
    have hperm := sortCounts_perm (usedCounts resample quantize img k)
    have hlen_s : (sortCounts (usedCounts resample quantize img k)).length =
        (usedCounts resample quantize img k).length := hperm.length_eq
    have htot : totalPixelsOf resample quantize img k =
        ((sortCounts (usedCounts resample quantize img k)).map Prod.fst).sum := by
      unfold totalPixelsOf
      exact (sum_fst_sortCounts _).symm
    rw [hcounts, htot]
    have hsplit :
        ((sortCounts (usedCounts resample quantize img k)).map Prod.fst).sum =
          (((sortCounts (usedCounts resample quantize img k)).map Prod.fst).take k).sum +
            (((sortCounts (usedCounts resample quantize img k)).map Prod.fst).drop k).sum := by
      conv_lhs =>
        rw [← List.take_append_drop k
          ((sortCounts (usedCounts resample quantize img k)).map Prod.fst)]
      rw [List.sum_append]
    have hpos : ∀ x ∈ ((sortCounts (usedCounts resample quantize img k)).map Prod.fst).drop k,
        0 < x := by
      intro x hx
      have hxL : x ∈ (sortCounts (usedCounts resample quantize img k)).map Prod.fst :=
        (List.drop_sublist _ _).subset hx
      obtain ⟨p, hp, hpx⟩ := List.mem_map.mp hxL
      have hpu : p ∈ usedCounts resample quantize img k := hperm.mem_iff.mp hp
      rw [← hpx]
      exact getcolors_pos _ p hpu
    have hdropsum :
        ((((sortCounts (usedCounts resample quantize img k)).map Prod.fst).drop k).sum = 0) ↔
          (((sortCounts (usedCounts resample quantize img k)).map Prod.fst).drop k = []) := by
      constructor
      · intro h0
        cases hd : ((sortCounts (usedCounts resample quantize img k)).map Prod.fst).drop k with
        | nil => rfl
        | cons x t =>
          rw [hd] at h0
          have hx : 0 < x := hpos x (by rw [hd]; exact List.mem_cons_self x t)
          rw [List.sum_cons] at h0
          omega
      · intro h0
        rw [h0]
        rfl
    have hdropnil :
        ((((sortCounts (usedCounts resample quantize img k)).map Prod.fst).drop k) = []) ↔
          (usedCounts resample quantize img k).length ≤ k := by
      rw [List.drop_eq_nil_iff]
      rw [List.length_map, hlen_s]
    constructor
    · rw [hsplit]
      exact Nat.le_add_right _ _
    · rw [List.length_map, List.length_take]
      constructor
      · intro heq
        rw [hsplit] at heq
        have h0 : (((sortCounts (usedCounts resample quantize img k)).map Prod.fst).drop k).sum = 0 := by
          omega
        have hle := hdropnil.mp (hdropsum.mp h0)
        omega
      · intro heq
        have hnil := hdropnil.mpr (by omega)
        rw [hsplit, hdropsum.mpr hnil]
        simp

/-- Witness for C8 at the black-and-white image with k = 2. -/
theorem C8_count_coverage_w :
    (bwRecords.map fun r => r.count).sum ≤ totalPixelsOf id quantizeModel bw16 2 ∧
      ((bwRecords.map fun r => r.count).sum = totalPixelsOf id quantizeModel bw16 2 ↔
        bwRecords.length = (usedCounts id quantizeModel bw16 2).length) :=
  C8_count_coverage id quantizeModel bw16 2 bwRecords extract_bw16_k2

/-- C10: the reverse tuple sort of line 87 orders equal-count entries by
palette index descending, and the returned records are exactly the
formatted first `k` entries of that sorted list in order. -/
theorem C10_tie_break_index_descending (resample : Img → Img)
    (quantize : List RGB → ℕ → List RGB × List ℕ) (img : Img) (k : ℕ)
    (rs : List ColorRecord)
    (h : extract_palette_pillow resample quantize img k = some rs) :
    (sortCounts (usedCounts resample quantize img k)).Chain'
        (fun a b => a.1 = b.1 → b.2 < a.2) ∧
      rs = ((sortCounts (usedCounts resample quantize img k)).take k).map
        (mkRecord (quantize (rgbData (flatten (resample img))) k).1
          (totalPixelsOf resample quantize img k)) := by
  constructor
  · have hsorted : (sortCounts (usedCounts resample quantize img k)).Pairwise descLex :=
      sortCounts_sorted _
    have hnodup : (sortCounts (usedCounts resample quantize img k)).Nodup :=
      ((sortCounts_perm _).nodup_iff).mpr (getcolors_nodup _)
    apply List.Pairwise.chain'
    refine (hsorted.and hnodup).imp ?_
    intro a b hab heq
    rcases hab with ⟨hd, hne⟩
    rcases hd with h1 | ⟨h1, h2⟩
    · omega
    · rcases Nat.lt_or_ge b.2 a.2 with hlt | hge
      · exact hlt
      · exfalso
        exact hne (Prod.ext heq (Nat.le_antisymm hge h2))
  · rw [extract_eq_ite] at h
    by_cases he : (usedCounts resample quantize img k).isEmpty = true
    · rw [if_pos he] at h
      injection h with h
      rw [← h]
      have he2 : usedCounts resample quantize img k = [] := List.isEmpty_iff.mp he
      rw [he2]
      simp [sortCounts, List.insertionSort]
    · rw [if_neg he] at h
      obtain ⟨hk, hrs⟩ := (topRecords_eq_some_iff _ _ _ _ _).mp h
      exact hrs

/-- Witness for C10 at the black-and-white image with k = 2. -/
theorem C10_tie_break_index_descending_w :
    (sortCounts (usedCounts id quantizeModel bw16 2)).Chain'
        (fun a b => a.1 = b.1 → b.2 < a.2) ∧
      bwRecords = ((sortCounts (usedCounts id quantizeModel bw16 2)).take 2).map
        (mkRecord (quantizeModel (rgbData (flatten (id bw16))) 2).1
          (totalPixelsOf id quantizeModel bw16 2)) :=
  C10_tie_break_index_descending id quantizeModel bw16 2 bwRecords extract_bw16_k2

end ColorPeek
